import Mathlib

/-!
Verification of the model-card-toolkit repository.

The repository's Python sources ship only the packaging script
(`setup.py`); the model-card core that the specification describes
(data model, merger, schema registry, validator, migrator, renderer)
is not present under the sources.  Definitions for that core are
therefore modelled from the specification text and marked
`Modelled from the spec:`.  The packaging script is embedded directly
from `setup.py`.
-/

namespace ModelCardToolkit

/-! ## Data model (merger)

Modelled from the spec: the ModelCard data model of §3 and the
Merger/Updater of §4.3, which are absent from the shipped sources. -/

/-- Modelled from the spec: a performance-metric entry of
`quantitative_analysis` — "each a name/value/confidence-interval/slice
tuple" (§3).  The missing source is the merger/data-model module. -/
structure Metric where
  name : String
  value : ℚ
  ci : Option (ℚ × ℚ)
  slice : Option String
  deriving DecidableEq, Repr

/-- Modelled from the spec: a named graphic entry (§3 `graphics`). -/
structure Graphic where
  name : String
  image : String
  deriving DecidableEq, Repr

/-- Modelled from the spec: the `model_details` nested record (§3). -/
structure ModelDetails where
  name : Option String
  version : Option String
  license : Option String
  references : List String
  citations : List String
  owners : List String
  deriving DecidableEq, Repr

/-- Modelled from the spec: the `model_parameters` nested record (§3). -/
structure ModelParameters where
  architecture : Option String
  inputFormat : Option String
  outputFormat : Option String
  deriving DecidableEq, Repr

/-- Modelled from the spec: the `considerations` record — "use cases,
limitations, tradeoffs, ethical considerations — each a set of
free-text entries" (§3). -/
structure Considerations where
  useCases : List String
  limitations : List String
  tradeoffs : List String
  ethicalConsiderations : List String
  deriving DecidableEq, Repr

/-- Modelled from the spec: the ModelCard root entity (§3).  A
"partial model card" (a document fragment used as a merge update) is
represented by the same type with absent fields `none` / `[]`. -/
structure ModelCard where
  schema_version : Option String
  model_details : ModelDetails
  model_parameters : ModelParameters
  quantitative_analysis : List Metric
  considerations : Considerations
  graphics : List Graphic
  deriving DecidableEq, Repr

/-- Modelled from the spec: the empty partial update `{}` — every
field absent. -/
def emptyCard : ModelCard :=
  { schema_version := none
    model_details :=
      { name := none, version := none, license := none
        references := [], citations := [], owners := [] }
    model_parameters :=
      { architecture := none, inputFormat := none, outputFormat := none }
    quantitative_analysis := []
    considerations :=
      { useCases := [], limitations := [], tradeoffs := []
        ethicalConsiderations := [] }
    graphics := [] }

/-- Modelled from the spec: scalar-field merge — "update overwrites
base if update's value is present (non-null/non-empty); otherwise base
is retained" (§4.3). -/
def mergeScalar (base update : Option String) : Option String :=
  match update with
  | none => base
  | some v => if v = "" then base else some v

/-- Modelled from the spec: set-like text-field merge — "union of base
and update, de-duplicated by exact string equality, insertion order
preserved (base entries first)" (§4.3). -/
def mergeSet (base update : List String) : List String :=
  update.foldl (fun acc x => if x ∈ acc then acc else acc ++ [x]) base

/-- Modelled from the spec: ordered-sequence merge — "update entries
are appended; an entry with a name matching an existing base entry
REPLACES it in place (preserving original position) rather than
duplicating" (§4.3), with the de-duplication key given by `key`. -/
def mergeKeyed {α κ : Type} [DecidableEq κ] (key : α → κ)
    (base update : List α) : List α :=
  update.foldl (fun acc x =>
    if acc.any (fun y => decide (key y = key x)) then
      acc.map (fun y => if key y = key x then x else y)
    else acc ++ [x]) base

/-- Modelled from the spec: the de-duplication key for
`quantitative_analysis` entries is "(metric name, slice identifier)"
(§4.3). -/
def metricKey (m : Metric) : String × Option String :=
  (m.name, m.slice)

/-- Modelled from the spec: merge of the `model_details` nested record
("Nested records: recursive application of the same rules
field-by-field", §4.3). -/
def mergeDetails (base update : ModelDetails) : ModelDetails :=
  { name := mergeScalar base.name update.name
    version := mergeScalar base.version update.version
    license := mergeScalar base.license update.license
    references := mergeSet base.references update.references
    citations := mergeSet base.citations update.citations
    owners := mergeSet base.owners update.owners }

/-- Modelled from the spec: merge of the `model_parameters` record. -/
def mergeParameters (base update : ModelParameters) : ModelParameters :=
  { architecture := mergeScalar base.architecture update.architecture
    inputFormat := mergeScalar base.inputFormat update.inputFormat
    outputFormat := mergeScalar base.outputFormat update.outputFormat }

/-- Modelled from the spec: merge of the `considerations` record. -/
def mergeConsiderations (base update : Considerations) : Considerations :=
  { useCases := mergeSet base.useCases update.useCases
    limitations := mergeSet base.limitations update.limitations
    tradeoffs := mergeSet base.tradeoffs update.tradeoffs
    ethicalConsiderations :=
      mergeSet base.ethicalConsiderations update.ethicalConsiderations }

/-- Modelled from the spec: `merge(base, update) -> ModelCard` (§4.3),
the Merger/Updater contract absent from the shipped sources. -/
def merge (base update : ModelCard) : ModelCard :=
  { schema_version := mergeScalar base.schema_version update.schema_version
    model_details := mergeDetails base.model_details update.model_details
    model_parameters :=
      mergeParameters base.model_parameters update.model_parameters
    quantitative_analysis :=
      mergeKeyed metricKey base.quantitative_analysis
        update.quantitative_analysis
    considerations :=
      mergeConsiderations base.considerations update.considerations
    graphics := mergeKeyed Graphic.name base.graphics update.graphics }

end ModelCardToolkit

namespace SetupPy

/-! ## Packaging script (`setup.py`)

Embedding of `_BuildCommand` and `_BazelBuildCommand` from
`src/setup.py`.  `find_executable` (from `distutils.spawn`) and the
standard `build.build.sub_commands` list are external collaborators and
are taken as parameters. -/

/-- Python truthiness for an `Optional[str]`: `None` and the empty
string are falsy (`if not self._bazel_cmd` in `setup.py`). -/
def truthy : Option String → Bool
  | none => false
  | some s => s ≠ ""

/-- The error message of the `RuntimeError` raised by
`_BazelBuildCommand.finalize_options` (setup.py lines 90-93). -/
def bazelNotFoundMsg : String :=
  "Could not find \"bazel\" or \"bazelisk\" binary. Please visit " ++
  "https://docs.bazel.build/versions/master/install.html for " ++
  "installation instruction."

/-- The `--macos_minimum_os` flag added on Darwin
(setup.py lines 94-96). -/
def additionalBuildOptions (system : String) : List String :=
  if system = "Darwin" then ["--macos_minimum_os=10.9"] else []

/-- State established by a successful
`_BazelBuildCommand.finalize_options`. -/
structure BazelBuildState where
  bazel_cmd : Option String
  additional_build_options : List String
  deriving DecidableEq, Repr

/-- `_BazelBuildCommand.finalize_options` (setup.py lines 85-96):
looks up `bazel`, falls back to `bazelisk` only when the first lookup
is falsy, raises `RuntimeError` when both are falsy, then sets
`_additional_build_options` from `platform.system()`.  Returns the
resulting state (or the error message) together with the list of
executables looked up, in order. -/
def finalize_options (find_executable : String → Option String)
    (system : String) : Except String BazelBuildState × List String :=
  let r1 := find_executable "bazel"
  if truthy r1 then
    (.ok { bazel_cmd := r1
           additional_build_options := additionalBuildOptions system },
     ["bazel"])
  else
    let r2 := find_executable "bazelisk"
    if truthy r2 then
      (.ok { bazel_cmd := r2
             additional_build_options := additionalBuildOptions system },
       ["bazel", "bazelisk"])
    else
      (.error bazelNotFoundMsg, ["bazel", "bazelisk"])

/-- `_BuildCommand._build_cc_extensions` (setup.py lines 67-68):
always returns `True`, so the `bazel_build` sub-command's predicate
holds on every build invocation. -/
def buildCcExtensions : Bool := true

/-- `_BuildCommand.sub_commands` (setup.py lines 74-76):
`[('bazel_build', _build_cc_extensions)] + build.build.sub_commands`,
with the inherited standard list taken as a parameter (distutils is an
external collaborator). -/
def subCommands (std : List String) : List String :=
  "bazel_build" :: std

/-- A sample executable finder used to instantiate the
`finalize_options` theorems: both `bazel` and `bazelisk` are on the
path. -/
def sampleFind : String → Option String
  | "bazel" => some "/usr/bin/bazel"
  | "bazelisk" => some "/usr/bin/bazelisk"
  | _ => none

end SetupPy

namespace ModelCardToolkit

/-! ## Schema registry, validator, renderer, migrator

Modelled from the spec: §4.1–§4.5; none of these components ship under
the sources. -/

/-- Modelled from the spec: a semantic version (the toolkit depends on
the `semantic-version` package; schema versions such as "0.3.2" are
major/minor/patch triples). -/
structure SemVer where
  major : ℕ
  minor : ℕ
  patch : ℕ
  deriving DecidableEq, Repr

/-- Modelled from the spec: strict semantic-version ordering —
"Versions are ordered by semantic-version comparison" (§4.1). -/
def semverLt (a b : SemVer) : Bool :=
  decide (a.major < b.major) ||
  (decide (a.major = b.major) &&
    (decide (a.minor < b.minor) ||
      (decide (a.minor = b.minor) && decide (a.patch < b.patch))))

/-- Modelled from the spec: reflexive semantic-version ordering. -/
def semverLe (a b : SemVer) : Bool :=
  semverLt a b || decide (a = b)

/-- Modelled from the spec: a versioned JSON Schema entry of the
Schema Registry (§4.1); validation is structural, so the schema is
carried as its version plus the required top-level fields (§4.2). -/
structure Schema where
  version : SemVer
  required : List String
  deriving DecidableEq, Repr

/-- Modelled from the spec: a registry lookup argument — an exact
version or "latest" (§4.1). -/
inductive VersionQuery
  | latest
  | exact (v : SemVer)
  deriving DecidableEq, Repr

/-- Modelled from the spec: `SchemaNotFoundError` (§4.1, §6). -/
inductive RegistryError
  | schemaNotFound
  deriving DecidableEq, Repr

/-- Modelled from the spec: the maximum-version schema among `s` and a
list of further registry entries, under semantic-version comparison. -/
def latestOf (s : Schema) : List Schema → Schema
  | [] => s
  | t :: rest => latestOf (if semverLt s.version t.version then t else s) rest

/-- Modelled from the spec: `resolve(version_or_latest) -> Schema`;
fails with `SchemaNotFoundError` if the version is unknown; "latest"
resolves to the maximum known version at call time (§4.1).  The
registry is the list of loaded schemas. -/
def resolve (reg : List Schema) : VersionQuery → Except RegistryError Schema
  | .exact v =>
    match reg.find? (fun s => decide (s.version = v)) with
    | some s => .ok s
    | none => .error .schemaNotFound
  | .latest =>
    match reg with
    | [] => .error .schemaNotFound
    | s :: rest => .ok (latestOf s rest)

/-- Modelled from the spec: a serialized model-card document — "JSON
object with required top-level key `schema_version` plus the sections
of §3" (§6) — represented as an association list of top-level fields. -/
abbrev Document := List (String × String)

/-- Association-list lookup used for document fields and template
stores. -/
def assocLookup {α : Type} (k : String) : List (String × α) → Option α
  | [] => none
  | (k', v) :: rest => if k' = k then some v else assocLookup k rest

/-- Modelled from the spec: "A `ValidationResult` is either `Valid` or
`Invalid{violations: ordered sequence of (json_pointer, message)}`"
(§4.2). -/
inductive ValidationResult
  | valid
  | invalid (violations : List (String × String))
  deriving DecidableEq, Repr

/-- Modelled from the spec: the required-field check of the structural
validator (§4.2), written in state-passing style: the document flows
through the check and is returned alongside the collected violations. -/
def checkRequired : List String → Document → Document × List (String × String)
  | [], d => (d, [])
  | r :: rs, d =>
    match assocLookup r d with
    | some _ => checkRequired rs d
    | none =>
      ((checkRequired rs d).1,
        ("/" ++ r, "missing required field") :: (checkRequired rs d).2)

/-- Modelled from the spec: `validate(document, schema) ->
ValidationResult` (§4.2): the outcome is returned as data, never
raised, and the returned document is the post-state of the input. -/
def validateDoc (d : Document) (s : Schema) : Document × ValidationResult :=
  ((checkRequired s.required d).1,
    if (checkRequired s.required d).2 = [] then .valid
    else .invalid (checkRequired s.required d).2)

/-- Modelled from the spec: a Jinja-style template — a sequence of
literal chunks and variable references (§4.5). -/
inductive Token
  | lit (s : String)
  | var (field : String)
  deriving DecidableEq, Repr

/-- Modelled from the spec: `TemplateNotFoundError` and
`TemplateRenderError` (§4.5, §6). -/
inductive RenderError
  | templateNotFound (name : String)
  | templateRender (msg : String)
  deriving DecidableEq, Repr

/-- Modelled from the spec: evaluation of a template against the
validated document's variable namespace; referencing an undefined
variable fails with `TemplateRenderError` (§4.5). -/
def renderTokens (ctx : Document) : List Token → Except RenderError String
  | [] => .ok ""
  | .lit s :: rest => (renderTokens ctx rest).map (s ++ ·)
  | .var f :: rest =>
    match assocLookup f ctx with
    | some v => (renderTokens ctx rest).map (v ++ ·)
    | none => .error (.templateRender ("undefined variable: " ++ f))

/-- The variables referenced by a template. -/
def varsOf (ts : List Token) : List String :=
  ts.filterMap (fun t =>
    match t with
    | .var f => some f
    | .lit _ => none)

/-- Modelled from the spec: the set of named templates plus the name
of the default built-in template (§4.5). -/
structure TemplateStore where
  templates : List (String × List Token)
  defaultName : String
  deriving DecidableEq, Repr

/-- Modelled from the spec: "Template selection: exact match by name,
else a default built-in template" (§4.5). -/
def selectTemplate (store : TemplateStore) (name : String) :
    Option (List Token) :=
  match assocLookup name store.templates with
  | some t => some t
  | none => assocLookup store.defaultName store.templates

/-- Modelled from the spec: `render(document, template) -> bytes`
(§4.5): select the template, then evaluate it; an unknown template
fails with `TemplateNotFoundError`. -/
def renderCard (store : TemplateStore) (name : String) (ctx : Document) :
    Except RenderError String :=
  match selectTemplate store name with
  | none => .error (.templateNotFound name)
  | some t => renderTokens ctx t

/-- Modelled from the spec: the bytes written out by a render call —
"render either produces the complete output or fails with no side
effects" (§4.5): output is written only after a fully successful
evaluation. -/
def renderedBytes (store : TemplateStore) (name : String) (ctx : Document) :
    List String :=
  match renderCard store name ctx with
  | .ok s => [s]
  | .error _ => []

/-- Modelled from the spec: a render invocation in an ambient caller
state (`w` counts prior calls); render is "a pure function of document
+ template" (§4.5), so the produced bytes do not depend on `w`. -/
def renderCall (w : ℕ) (store : TemplateStore) (name : String)
    (ctx : Document) : ℕ × Except RenderError String :=
  (w + 1, renderCard store name ctx)

/-- Modelled from the spec: `UnsupportedMigrationError` (§4.4, §6). -/
inductive MigrationError
  | unsupportedMigration
  deriving DecidableEq, Repr

/-- Modelled from the spec: the Migrator's known version graph — "an
ordered chain of version-to-version transformation rules" (§4.4):
`versions` lists the known schema versions oldest-first and `rules[i]`
(when present) transforms a document from `versions[i]` to
`versions[i+1]`; a `none` entry is a missing intermediate rule. -/
structure Migrator where
  versions : List SemVer
  rules : List (Option (Document → Document))

/-- Collects a list of optional rules into a rule list, failing when
any rule is missing. -/
def sequenceOpt {α : Type} : List (Option α) → Option (List α)
  | [] => some []
  | none :: _ => none
  | some f :: rest => (sequenceOpt rest).map (f :: ·)

/-- The index of a version in the Migrator's known version chain. -/
def versionIndex (m : Migrator) (v : SemVer) : Option ℕ :=
  m.versions.findIdx? (fun x => decide (x = v))

/-- The chain of rules walking the version graph from index `i` to
index `j`, when every intermediate rule exists. -/
def ruleChain (m : Migrator) (i j : ℕ) :
    Option (List (Document → Document)) :=
  sequenceOpt ((m.rules.drop i).take (j - i))

/-- Modelled from the spec: `migrate(document, from_version,
to_version)` (§4.4) — walk the version chain along strictly increasing
versions applying each rule in order; fails with
`UnsupportedMigrationError` if no path exists (unknown endpoint,
downgrade, or missing intermediate rule). -/
def migrate (m : Migrator) (d : Document) (vfrom vto : SemVer) :
    Except MigrationError Document :=
  match versionIndex m vfrom, versionIndex m vto with
  | some i, some j =>
    if i ≤ j then
      match ruleChain m i j with
      | some fs => .ok (fs.foldl (fun doc f => f doc) d)
      | none => .error .unsupportedMigration
    else .error .unsupportedMigration
  | _, _ => .error .unsupportedMigration

/-- Modelled from the spec: existence of a strictly increasing path of
rules from `vfrom` to `vto` in the Migrator's version graph. -/
def pathExists (m : Migrator) (vfrom vto : SemVer) : Bool :=
  match versionIndex m vfrom, versionIndex m vto with
  | some i, some j => decide (i ≤ j) && (ruleChain m i j).isSome
  | _, _ => false

/-- A sample registry used to instantiate the resolver theorems: known
versions 0.1.0 and 0.3.2 (the maximum). -/
def sampleRegistry : List Schema :=
  [{ version := ⟨0, 1, 0⟩, required := ["model_details"] },
   { version := ⟨0, 3, 2⟩, required := ["schema_version", "model_details"] }]

/-- A sample validated document used to instantiate the renderer
theorems. -/
def sampleDoc : Document :=
  [("schema_version", "0.3.2"), ("model_details", "x")]

/-- A sample template store: an `html` template referencing
`model_details`, and a `summary` template referencing a field `f1`. -/
def sampleStore : TemplateStore :=
  { templates :=
      [("html", [.lit "<h1>", .var "model_details", .lit "</h1>"]),
       ("summary", [.lit "Name: ", .var "f1"])]
    defaultName := "html" }

/-- A sample migrator with chain 0.1.0 → 0.2.0 → 0.3.2 and both rules
present. -/
def sampleMigrator : Migrator :=
  { versions := [⟨0, 1, 0⟩, ⟨0, 2, 0⟩, ⟨0, 3, 2⟩]
    rules := [some (fun doc => ("migrated_to_0_2_0", "true") :: doc),
              some (fun doc => ("migrated_to_0_3_2", "true") :: doc)] }

end ModelCardToolkit

namespace ModelCardToolkit

/-- C1: merging any model card `D` with the empty partial update `{}`
returns a result equal to `D`: every scalar field retains the base
value, and every sequence/set merge folds over an empty update list. -/
theorem merge_empty_update (D : ModelCard) : merge D emptyCard = D := rfl

/-- C2: merging a base whose `quantitative_analysis` is
`[{name:"accuracy", value:0.9}]` with an update whose
`quantitative_analysis` is `[{name:"accuracy", value:0.95},
{name:"f1", value:0.8}]` yields exactly `[{name:"accuracy",
value:0.95}, {name:"f1", value:0.8}]` — the matching entry is replaced
in its original position, the non-matching entry is appended, and no
duplicate "accuracy" entry remains. -/
theorem merge_quantitative_scenario :
    (merge
      { emptyCard with quantitative_analysis :=
          [{ name := "accuracy", value := 9/10, ci := none, slice := none }] }
      { emptyCard with quantitative_analysis :=
          [{ name := "accuracy", value := 95/100, ci := none, slice := none },
           { name := "f1", value := 8/10, ci := none, slice := none }]
      }).quantitative_analysis =
      [{ name := "accuracy", value := 95/100, ci := none, slice := none },
       { name := "f1", value := 8/10, ci := none, slice := none }] ∧
    ((merge
      { emptyCard with quantitative_analysis :=
          [{ name := "accuracy", value := 9/10, ci := none, slice := none }] }
      { emptyCard with quantitative_analysis :=
          [{ name := "accuracy", value := 95/100, ci := none, slice := none },
           { name := "f1", value := 8/10, ci := none, slice := none }]
      }).quantitative_analysis.countP
        (fun m => decide (m.name = "accuracy"))) = 1 :=
  ⟨rfl, rfl⟩

theorem semverLe_refl (a : SemVer) : semverLe a a = true := by
  simp [semverLe]

theorem semverLt_le (a b : SemVer) (h : semverLt a b = true) :
    semverLe a b = true := by
  simp [semverLe, h]

theorem semverLe_trans (a b c : SemVer) (h1 : semverLe a b = true)
    (h2 : semverLe b c = true) : semverLe a c = true := by
  cases a
  cases b
  cases c
  simp [semverLe, semverLt, SemVer.mk.injEq] at h1 h2 ⊢
  omega

theorem semverLt_false_le (a b : SemVer) (h : semverLt a b = false) :
    semverLe b a = true := by
  cases a
  cases b
  simp [semverLe, semverLt, SemVer.mk.injEq] at h ⊢
  omega

theorem latestOf_mem (s : Schema) (l : List Schema) :
    latestOf s l = s ∨ latestOf s l ∈ l := by
  induction l generalizing s with
  | nil => exact Or.inl rfl
  | cons t rest ih =>
    have heq : latestOf s (t :: rest) =
        latestOf (if semverLt s.version t.version then t else s) rest := rfl
    rcases ih (if semverLt s.version t.version then t else s) with h | h
    · rw [heq, h]
      split
      · exact Or.inr (List.mem_cons_self _ _)
      · exact Or.inl rfl
    · rw [heq]
      exact Or.inr (List.mem_cons_of_mem _ h)

theorem latestOf_max (s : Schema) (l : List Schema) :
    semverLe s.version (latestOf s l).version = true ∧
    ∀ t ∈ l, semverLe t.version (latestOf s l).version = true := by
  induction l generalizing s with
  | nil => exact ⟨semverLe_refl _, by simp⟩
  | cons t rest ih =>
    have heq : latestOf s (t :: rest) =
        latestOf (if semverLt s.version t.version then t else s) rest := rfl
    obtain ⟨h1, h2⟩ := ih (if semverLt s.version t.version then t else s)
    have hs : semverLe s.version
        (if semverLt s.version t.version then t else s).version = true := by
      by_cases hlt : semverLt s.version t.version = true
      · simp only [hlt, if_true]
        exact semverLt_le _ _ hlt
      · simp only [Bool.eq_false_iff.mpr hlt, if_false]
        exact semverLe_refl _
    have ht : semverLe t.version
        (if semverLt s.version t.version then t else s).version = true := by
      by_cases hlt : semverLt s.version t.version = true
      · simp only [hlt, if_true]
        exact semverLe_refl _
      · simp only [Bool.eq_false_iff.mpr hlt, if_false]
        exact semverLt_false_le _ _ (Bool.eq_false_iff.mpr hlt)
    refine ⟨?_, ?_⟩
    · rw [heq]
      exact semverLe_trans _ _ _ hs h1
    · intro u hu
      rw [heq]
      rcases List.mem_cons.mp hu with h | h
      · subst h
        exact semverLe_trans _ _ _ ht h1
      · exact h2 u h

/-- C3: resolving a version not present in the Schema Registry fails
with `SchemaNotFoundError`, and resolving "latest" on a nonempty
registry returns a registered schema whose version is maximal under
semantic-version ordering. -/
theorem resolve_spec (reg : List Schema) (v : SemVer) :
    ((∀ s ∈ reg, s.version ≠ v) →
      resolve reg (.exact v) = .error .schemaNotFound) ∧
    (reg ≠ [] →
      ∃ m, m ∈ reg ∧ resolve reg .latest = .ok m ∧
        ∀ s ∈ reg, semverLe s.version m.version = true) := by
  constructor
  · intro hnone
    have hfind : reg.find? (fun s => decide (s.version = v)) = none := by
      rw [List.find?_eq_none]
      intro x hx
      simp [hnone x hx]
    simp [resolve, hfind]
  · intro hne
    rcases reg with _ | ⟨s, rest⟩
    · exact absurd rfl hne
    refine ⟨latestOf s rest, ?_, rfl, ?_⟩
    · rcases latestOf_mem s rest with h | h
      · rw [h]
        exact List.mem_cons_self _ _
      · exact List.mem_cons_of_mem _ h
    · intro u hu
      rcases List.mem_cons.mp hu with h | h
      · subst h
        exact (latestOf_max u rest).1
      · exact (latestOf_max s rest).2 u h

/-- Witness for C3: against a registry whose maximum known version is
0.3.2, resolving the unknown version 9.9.9 fails with
`SchemaNotFoundError`, and "latest" resolves to a maximal entry. -/
theorem resolve_spec_witness :
    resolve sampleRegistry (.exact ⟨9, 9, 9⟩) = .error .schemaNotFound ∧
    ∃ m, m ∈ sampleRegistry ∧ resolve sampleRegistry .latest = .ok m ∧
      ∀ s ∈ sampleRegistry, semverLe s.version m.version = true := by
  have h := resolve_spec sampleRegistry ⟨9, 9, 9⟩
  exact ⟨h.1 (by decide), h.2 (by decide)⟩

theorem checkRequired_fst (rs : List String) (d : Document) :
    (checkRequired rs d).1 = d := by
  induction rs with
  | nil => rfl
  | cons r rs ih =>
    cases h : assocLookup r d with
    | none =>
      simp only [checkRequired, h]
      exact ih
    | some v =>
      simp only [checkRequired, h]
      exact ih

/-- C4: validation never mutates its input — the document returned by
`validateDoc` is the input document — and the outcome is a
`ValidationResult` value, either `Valid` or `Invalid` with a nonempty
ordered sequence of (json_pointer, message) violations, never an
exception. -/
theorem validateDoc_pure (d : Document) (s : Schema) :
    (validateDoc d s).1 = d ∧
    ((validateDoc d s).2 = .valid ∨
      ∃ vs, vs ≠ [] ∧ (validateDoc d s).2 = .invalid vs) := by
  refine ⟨checkRequired_fst _ _, ?_⟩
  by_cases h : (checkRequired s.required d).2 = []
  · left
    simp [validateDoc, h]
  · right
    exact ⟨_, h, by simp [validateDoc, h]⟩

/-- C5: rendering is deterministic — two render calls on the same
validated document and template, in different ambient caller states,
produce identical output bytes. -/
theorem render_deterministic (w₁ w₂ : ℕ) (store : TemplateStore)
    (name : String) (ctx : Document) (s : Schema)
    (_hval : (validateDoc ctx s).2 = .valid) :
    (renderCall w₁ store name ctx).2 = (renderCall w₂ store name ctx).2 :=
  rfl

/-- Witness for C5: two render calls on a concrete validated document
agree. -/
theorem render_deterministic_witness :
    (validateDoc sampleDoc
      { version := ⟨0, 3, 2⟩
        required := ["schema_version", "model_details"] }).2 = .valid ∧
    (renderCall 0 sampleStore "html" sampleDoc).2 =
      (renderCall 1 sampleStore "html" sampleDoc).2 :=
  ⟨by decide,
   render_deterministic 0 1 sampleStore "html" sampleDoc
     { version := ⟨0, 3, 2⟩
       required := ["schema_version", "model_details"] } (by decide)⟩

theorem renderTokens_missing (ctx : Document) (ts : List Token)
    (h : ∃ f ∈ varsOf ts, assocLookup f ctx = none) :
    ∃ m, renderTokens ctx ts = .error (.templateRender m) := by
  induction ts with
  | nil => simp [varsOf] at h
  | cons t rest ih =>
    cases t with
    | lit s =>
      have h' : ∃ f ∈ varsOf rest, assocLookup f ctx = none := by
        simpa [varsOf] using h
      obtain ⟨m, hm⟩ := ih h'
      exact ⟨m, by simp [renderTokens, hm, Except.map]⟩
    | var f' =>
      cases hf : assocLookup f' ctx with
      | none =>
        exact ⟨"undefined variable: " ++ f', by simp [renderTokens, hf]⟩
      | some v =>
        have h' : ∃ f ∈ varsOf rest, assocLookup f ctx = none := by
          obtain ⟨f, hfmem, hfnone⟩ := h
          have : f = f' ∨ f ∈ varsOf rest := by simpa [varsOf] using hfmem
          rcases this with h | h
          · subst h
            rw [hf] at hfnone
            exact absurd hfnone (by simp)
          · exact ⟨f, h, hfnone⟩
        obtain ⟨m, hm⟩ := ih h'
        exact ⟨m, by simp [renderTokens, hf, hm, Except.map]⟩

/-- C6: render is all-or-nothing — it either returns the complete
output bytes or fails with a `RenderError` (`TemplateNotFoundError` or
`TemplateRenderError`) writing zero output bytes; in particular a
document missing a field referenced by the selected template fails
with `TemplateRenderError` and writes zero output bytes. -/
theorem render_all_or_nothing (store : TemplateStore) (name : String)
    (ctx : Document) :
    ((∃ s, renderCard store name ctx = .ok s ∧
        renderedBytes store name ctx = [s]) ∨
      (∃ e, renderCard store name ctx = .error e ∧
        renderedBytes store name ctx = [])) ∧
    (∀ t, selectTemplate store name = some t →
      (∃ f ∈ varsOf t, assocLookup f ctx = none) →
      ∃ m, renderCard store name ctx = .error (.templateRender m) ∧
        renderedBytes store name ctx = []) := by
  constructor
  · cases h : renderCard store name ctx with
    | ok s => exact Or.inl ⟨s, rfl, by simp [renderedBytes, h]⟩
    | error e => exact Or.inr ⟨e, rfl, by simp [renderedBytes, h]⟩
  · intro t ht hmiss
    obtain ⟨m, hm⟩ := renderTokens_missing ctx t hmiss
    refine ⟨m, ?_, ?_⟩
    · simp [renderCard, ht, hm]
    · simp [renderedBytes, renderCard, ht, hm]

/-- Witness for C6: rendering the sample document against the
`summary` template, which references the absent field `f1`, fails with
`TemplateRenderError` and writes zero output bytes. -/
theorem render_all_or_nothing_witness :
    ∃ m, renderCard sampleStore "summary" sampleDoc =
        .error (.templateRender m) ∧
      renderedBytes sampleStore "summary" sampleDoc = [] :=
  (render_all_or_nothing sampleStore "summary" sampleDoc).2
    [.lit "Name: ", .var "f1"] (by decide) ⟨"f1", by decide, rfl⟩

theorem sequenceOpt_append {α : Type} (a b : List (Option α))
    (xs ys : List α) (ha : sequenceOpt a = some xs)
    (hb : sequenceOpt b = some ys) :
    sequenceOpt (a ++ b) = some (xs ++ ys) := by
  induction a generalizing xs with
  | nil =>
    simp only [sequenceOpt] at ha
    injection ha with h
    subst h
    simpa using hb
  | cons o rest ih =>
    cases o with
    | none => simp [sequenceOpt] at ha
    | some f =>
      simp only [sequenceOpt] at ha
      cases hr : sequenceOpt rest with
      | none =>
        rw [hr] at ha
        simp [Option.map] at ha
      | some xs' =>
        rw [hr] at ha
        simp only [Option.map] at ha
        injection ha with h
        subst h
        simp [sequenceOpt, List.cons_append, ih xs' hr]

theorem ruleChain_append (m : Migrator) (i j k : ℕ) (hij : i ≤ j)
    (hjk : j ≤ k) (fs gs : List (Document → Document))
    (h1 : ruleChain m i j = some fs) (h2 : ruleChain m j k = some gs) :
    ruleChain m i k = some (fs ++ gs) := by
  unfold ruleChain at h1 h2 ⊢
  have hsplit : (m.rules.drop i).take (k - i) =
      (m.rules.drop i).take (j - i) ++ (m.rules.drop j).take (k - j) := by
    have hk : k - i = (j - i) + (k - j) := by omega
    rw [hk, List.take_add]
    congr 2
    rw [List.drop_drop]
    congr 1
    omega
  rw [hsplit]
  exact sequenceOpt_append _ _ _ _ h1 h2

/-- C7: migration composes along the version graph — migrating from
`v₁` to `v₂` and then from `v₂` to `v₃` equals migrating from `v₁` to
`v₃` directly — and whenever no strictly increasing path of rules
exists (unknown endpoint, downgrade, or missing intermediate rule)
`migrate` fails with `UnsupportedMigrationError`. -/
theorem migrate_spec (m : Migrator) (d d₂ d₃ : Document)
    (v₁ v₂ v₃ : SemVer) :
    (semverLt v₁ v₂ = true → semverLt v₂ v₃ = true →
      migrate m d v₁ v₂ = .ok d₂ → migrate m d₂ v₂ v₃ = .ok d₃ →
      migrate m d v₁ v₃ = .ok d₃) ∧
    (pathExists m v₁ v₂ = false →
      migrate m d v₁ v₂ = .error .unsupportedMigration) := by
  constructor
  · intro _ _ h12 h23
    rcases hI1 : versionIndex m v₁ with _ | i
    · simp only [migrate, hI1] at h12
      exact Except.noConfusion h12
    rcases hI2 : versionIndex m v₂ with _ | j
    · simp only [migrate, hI1, hI2] at h12
      exact Except.noConfusion h12
    rcases hI3 : versionIndex m v₃ with _ | k
    · simp only [migrate, hI2, hI3] at h23
      exact Except.noConfusion h23
    simp only [migrate, hI1, hI2] at h12
    simp only [migrate, hI2, hI3] at h23
    simp only [migrate, hI1, hI3]
    split at h12
    case isTrue hij =>
      split at h23
      case isTrue hjk =>
        cases hc1 : ruleChain m i j with
        | none =>
          rw [hc1] at h12
          exact Except.noConfusion h12
        | some fs =>
          rw [hc1] at h12
          cases hc2 : ruleChain m j k with
          | none =>
            rw [hc2] at h23
            exact Except.noConfusion h23
          | some gs =>
            rw [hc2] at h23
            injection h12 with h12'
            injection h23 with h23'
            rw [if_pos (le_trans hij hjk),
              ruleChain_append m i j k hij hjk fs gs hc1 hc2]
            show Except.ok ((fs ++ gs).foldl (fun doc f => f doc) d) =
              Except.ok d₃
            rw [List.foldl_append, h12', h23']
      case isFalse => exact Except.noConfusion h23
    case isFalse => exact Except.noConfusion h12
  · intro hp
    rcases hI1 : versionIndex m v₁ with _ | i
    · simp [migrate, hI1]
    rcases hI2 : versionIndex m v₂ with _ | j
    · simp [migrate, hI1, hI2]
    simp only [pathExists, hI1, hI2] at hp
    simp only [migrate, hI1, hI2]
    by_cases hij : i ≤ j
    · rw [decide_eq_true hij, Bool.true_and] at hp
      cases hc : ruleChain m i j with
      | some fs =>
        rw [hc] at hp
        simp at hp
      | none => simp [hij, hc]
    · simp [hij]

/-- Witness for C7: on the sample chain 0.1.0 → 0.2.0 → 0.3.2 the
two-step migration equals the direct one, and the downgrade from 0.3.2
to 0.1.0 fails with `UnsupportedMigrationError`. -/
theorem migrate_spec_witness :
    migrate sampleMigrator [("schema_version", "0.1.0")]
        ⟨0, 1, 0⟩ ⟨0, 3, 2⟩ =
      .ok [("migrated_to_0_3_2", "true"), ("migrated_to_0_2_0", "true"),
        ("schema_version", "0.1.0")] ∧
    migrate sampleMigrator [("schema_version", "0.1.0")]
        ⟨0, 3, 2⟩ ⟨0, 1, 0⟩ =
      .error .unsupportedMigration :=
  ⟨(migrate_spec sampleMigrator [("schema_version", "0.1.0")]
      [("migrated_to_0_2_0", "true"), ("schema_version", "0.1.0")]
      [("migrated_to_0_3_2", "true"), ("migrated_to_0_2_0", "true"),
        ("schema_version", "0.1.0")]
      ⟨0, 1, 0⟩ ⟨0, 2, 0⟩ ⟨0, 3, 2⟩).1 (by decide) (by decide) rfl rfl,
   (migrate_spec sampleMigrator [("schema_version", "0.1.0")] [] []
      ⟨0, 3, 2⟩ ⟨0, 1, 0⟩ ⟨0, 0, 0⟩).2 rfl⟩

end ModelCardToolkit

namespace SetupPy

/-- C8: `_BazelBuildCommand.finalize_options` raises `RuntimeError` if
and only if neither a `bazel` nor a `bazelisk` executable is found on
the path; when both exist it selects `bazel`, and the `bazelisk`
lookup is attempted only after the `bazel` lookup returns nothing
(`find_executable` returns a path — a nonempty string — or `none`). -/
theorem finalize_options_spec
    (find_executable : String → Option String) (system : String)
    (hfind : ∀ s p, find_executable s = some p → p ≠ "") :
    ((finalize_options find_executable system).1 = .error bazelNotFoundMsg ↔
      find_executable "bazel" = none ∧ find_executable "bazelisk" = none) ∧
    (∀ p q, find_executable "bazel" = some p →
      find_executable "bazelisk" = some q →
      (finalize_options find_executable system).1 =
        .ok { bazel_cmd := some p
              additional_build_options := additionalBuildOptions system }) ∧
    ("bazelisk" ∈ (finalize_options find_executable system).2 ↔
      find_executable "bazel" = none) := by
  rcases h1 : find_executable "bazel" with _ | p
  · rcases h2 : find_executable "bazelisk" with _ | q
    · simp [finalize_options, truthy, h1, h2]
    · simp [finalize_options, truthy, h1, h2, hfind _ _ h2]
  · simp [finalize_options, truthy, h1, hfind _ _ h1]
    exact fun _ _ hp' _ => hp'

/-- Witness for C8: with both executables on the path,
`finalize_options` succeeds selecting `bazel` and never looks up
`bazelisk`. -/
theorem finalize_options_spec_witness :
    (finalize_options sampleFind "Linux").1 =
      .ok { bazel_cmd := some "/usr/bin/bazel"
            additional_build_options := [] } ∧
    "bazelisk" ∉ (finalize_options sampleFind "Linux").2 := by
  have hf : ∀ s p, sampleFind s = some p → p ≠ "" := by
    intro s p hp
    unfold sampleFind at hp
    split at hp
    · injection hp with hv
      subst hv
      decide
    · injection hp with hv
      subst hv
      decide
    · exact Option.noConfusion hp
  have h := finalize_options_spec sampleFind "Linux" hf
  refine ⟨h.2.1 "/usr/bin/bazel" "/usr/bin/bazelisk" rfl rfl, ?_⟩
  intro hmem
  exact absurd (h.2.2.mp hmem) (by simp [sampleFind])

/-- C9: after `finalize_options` succeeds, the additional build
options list equals `['--macos_minimum_os=10.9']` exactly when
`platform.system()` is `Darwin`, and is empty otherwise. -/
theorem finalize_options_darwin_options
    (find_executable : String → Option String) (system : String)
    (st : BazelBuildState)
    (h : (finalize_options find_executable system).1 = .ok st) :
    st.additional_build_options =
      if system = "Darwin" then ["--macos_minimum_os=10.9"] else [] := by
  simp only [finalize_options] at h
  split at h
  · injection h with h'
    subst h'
    rfl
  · split at h
    · injection h with h'
      subst h'
      rfl
    · injection h

/-- Witness for C9: on Darwin with `bazel` present, the additional
build options are exactly the macOS minimum-OS flag. -/
theorem finalize_options_darwin_options_witness :
    ({ bazel_cmd := some "/usr/bin/bazel"
       additional_build_options := ["--macos_minimum_os=10.9"] }
        : BazelBuildState).additional_build_options =
      if "Darwin" = "Darwin" then ["--macos_minimum_os=10.9"] else [] :=
  finalize_options_darwin_options sampleFind "Darwin" _ rfl

/-- C10: `_BuildCommand.sub_commands` places `bazel_build` first and
otherwise preserves the inherited standard build sub-commands in their
original order, and its predicate `_build_cc_extensions` always holds,
so `bazel_build` runs before every standard build sub-command. -/
theorem subCommands_spec (std : List String) :
    subCommands std = "bazel_build" :: std ∧
    (subCommands std).head? = some "bazel_build" ∧
    (subCommands std).tail = std ∧
    buildCcExtensions = true :=
  ⟨rfl, rfl, rfl, rfl⟩

end SetupPy
